import Mathlib

/-!
Verification development for the ai-agent-aws repository (Python).

Shallow embedding of the core modules:
  - api/core/state.py    (StateManager: load_state / save_state over a JSON file)
  - api/core/settings.py (SettingsLoader: YAML settings + prompt templates)
  - api/core/aws.py      (AWSClient: thin wrappers over the provider SDK)
  - api/app.py           (HTTP handlers: state, requests, plans/execute)
  - the PlanBuilder of core/agent.py, which is imported by app.py but whose
    source is not part of the visible repository; it is modelled from the
    specification text (dependency-ordered plans, cycle = build-time error).

JSON/YAML document values are modelled by the inductive type JVal: objects are
string-keyed association lists, matching the declared Python types
(Dict[str, Any] backed by a JSON file). The backing file is modelled by
FileContent: absent, corrupt (present but not parseable, e.g. empty or
truncated), or a stored document.
-/

/-- A JSON (or YAML) document value: null, booleans, numbers, strings,
arrays, and string-keyed objects. -/
inductive JVal where
  | null
  | bool (b : Bool)
  | num (n : Int)
  | str (s : String)
  | arr (elems : List JVal)
  | obj (fields : List (String × JVal))


/-- The state mapping persisted by StateManager: resource-id to value,
as declared in state.py (Dict[str, Any] serialized as JSON). -/
abbrev Snapshot := List (String × JVal)

/-- The observable content of the backing state file. `corrupt` covers a file
that exists but does not parse as JSON (empty or truncated included). -/
inductive FileContent where
  | absent
  | corrupt
  | stored (s : Snapshot)


namespace StateManager

/-- state.py, StateManager.load_state: if the file does not exist return an
empty dict; parse failures (json.JSONDecodeError) also return an empty dict;
otherwise return the parsed content. -/
def load_state : FileContent → Snapshot
  | FileContent.absent => []
  | FileContent.corrupt => []
  | FileContent.stored s => s

/-- state.py, StateManager.save_state: the final file content after
json.dump of the state into the file opened for writing. -/
def save_state (state : Snapshot) : FileContent :=
  FileContent.stored state

/-- The sequence of file contents the backing file passes through during
StateManager.save_state. Python open(path, 'w') truncates the file at open
time, so the file is first empty (not parseable as JSON, hence corrupt in
this model); json.dump then streams the document, so every intermediate
prefix is likewise not parseable; the final content is the stored state. -/
def save_state_trace (state : Snapshot) : List FileContent :=
  [FileContent.corrupt, FileContent.stored state]

end StateManager

/-- A YAML settings file on disk: missing, present-but-malformed, or a
parsed document. -/
inductive YamlFile where
  | missing
  | malformed
  | parsed (v : JVal)


/-- The two error classes raised by SettingsLoader._load_yaml_file:
FileNotFoundError and yaml.YAMLError, both re-raised to the caller. -/
inductive LoadError where
  | fileNotFound (path : String)
  | yamlError (path : String)


/-- The settings directory as seen by SettingsLoader: the three required
YAML files and the optional templates subdirectory (none = the directory is
missing; otherwise the listing of file name to file content). -/
structure SettingsDir where
  field_mappings_file : YamlFile
  resource_extraction_file : YamlFile
  resource_patterns_file : YamlFile
  templates : Option (List (String × String))


def joinPath (dir name : String) : String := dir ++ "/" ++ name

/-- True when loading the file would succeed (it exists and parses). -/
def YamlFile.loadable : YamlFile → Bool
  | YamlFile.parsed _ => true
  | _ => false

namespace SettingsLoader

/-- settings.py, SettingsLoader._load_yaml_file: open and yaml.safe_load the
file; FileNotFoundError and yaml.YAMLError are re-raised with the path in
the message. -/
def load_yaml_file (settings_path : String) (file : YamlFile) (file_name : String) :
    Except LoadError JVal :=
  match file with
  | YamlFile.missing => Except.error (LoadError.fileNotFound (joinPath settings_path file_name))
  | YamlFile.malformed => Except.error (LoadError.yamlError (joinPath settings_path file_name))
  | YamlFile.parsed v => Except.ok v

/-- Python dict assignment on an insertion-ordered association list: update
the existing key in place, or append the new key at the end. -/
def insertAssoc (k v : String) : List (String × String) → List (String × String)
  | [] => [(k, v)]
  | (k2, v2) :: rest =>
    if k2 = k then (k, v) :: rest else (k2, v2) :: insertAssoc k v rest

/-- settings.py, SettingsLoader._load_prompts: if the templates directory is
missing, return leaving the prompts table empty; otherwise collect every
.txt file, keyed by the file name with every ".txt" occurrence removed
(Python str.replace). -/
def load_prompts : Option (List (String × String)) → List (String × String)
  | none => []
  | some entries =>
    entries.foldl
      (fun acc e =>
        if e.1.endsWith ".txt" then insertAssoc (e.1.replace ".txt" "") e.2 acc else acc)
      []

end SettingsLoader

/-- The loaded settings held by a SettingsLoader instance. -/
structure SettingsLoader where
  settings_path : String
  field_mappings : JVal
  resource_extraction : JVal
  resource_patterns : JVal
  prompts : List (String × String)


/-- settings.py, SettingsLoader.__init__ / _load_all_settings: load the three
YAML documents in order (any failure propagates out of the constructor, so no
instance is produced), then load the prompt templates. -/
def SettingsLoader.init (settings_path : String) (dir : SettingsDir) :
    Except LoadError SettingsLoader := do
  let fm ← SettingsLoader.load_yaml_file settings_path dir.field_mappings_file
    "field-mappings-enhanced.yaml"
  let re ← SettingsLoader.load_yaml_file settings_path dir.resource_extraction_file
    "resource-extraction-enhanced.yaml"
  let rp ← SettingsLoader.load_yaml_file settings_path dir.resource_patterns_file
    "resource-patterns-enhanced.yaml"
  pure ⟨settings_path, fm, re, rp, SettingsLoader.load_prompts dir.templates⟩

/-- The typed error raised by the provider SDK (botocore ClientError),
carrying the provider error code and message. -/
structure ClientError where
  code : String
  message : String

/-- Result of a provider SDK call: the provider response document on
success, or a typed ClientError on failure. -/
abbrev AwsResult := Except ClientError JVal

/-- The keyword arguments aws.py passes to ec2_client.run_instances. -/
structure RunInstancesParams where
  ImageId : String
  InstanceType : String
  KeyName : String
  SecurityGroupIds : List String
  MinCount : Nat
  MaxCount : Nat

/-- The provider SDK operations used by AWSClient (boto3 ec2 and s3
clients), one function per call site in aws.py. -/
structure AWSProvider where
  run_instances : RunInstancesParams → AwsResult
  terminate_instances : List String → AwsResult
  create_bucket : String → List (String × String) → AwsResult
  describe_vpcs : Unit → AwsResult

namespace AWSClient

/-- The run_instances keyword arguments built by
AWSClient.create_ec2_instance: the four caller-supplied values plus
MinCount=1 and MaxCount=1. -/
def ec2RunParams (image_id instance_type key_name : String)
    (security_group_ids : List String) : RunInstancesParams :=
  ⟨image_id, instance_type, key_name, security_group_ids, 1, 1⟩

/-- aws.py, AWSClient.create_ec2_instance: call run_instances and return
its response; on ClientError, print a message and re-raise the same error. -/
def create_ec2_instance (p : AWSProvider) (image_id instance_type key_name : String)
    (security_group_ids : List String) : AwsResult :=
  match p.run_instances (ec2RunParams image_id instance_type key_name security_group_ids) with
  | Except.ok response => Except.ok response
  | Except.error e => Except.error e

/-- aws.py, AWSClient.terminate_ec2_instance: call terminate_instances with
the single-element id list and return its response; on ClientError, print
and re-raise. -/
def terminate_ec2_instance (p : AWSProvider) (instance_id : String) : AwsResult :=
  match p.terminate_instances [instance_id] with
  | Except.ok response => Except.ok response
  | Except.error e => Except.error e

/-- aws.py, AWSClient.create_s3_bucket: call create_bucket with the bucket
name and the LocationConstraint configuration and return its response; on
ClientError, print and re-raise. -/
def create_s3_bucket (p : AWSProvider) (bucket_name region : String) : AwsResult :=
  match p.create_bucket bucket_name [("LocationConstraint", region)] with
  | Except.ok response => Except.ok response
  | Except.error e => Except.error e

/-- aws.py, AWSClient.list_vpcs: call describe_vpcs and return its
response; on ClientError, print and re-raise. -/
def list_vpcs (p : AWSProvider) : AwsResult :=
  match p.describe_vpcs () with
  | Except.ok response => Except.ok response
  | Except.error e => Except.error e

end AWSClient

/-- A Flask response: the JSON body and the HTTP status code. -/
structure Response where
  body : JVal
  status : Nat

/-- app.py error responses: jsonify a singleton error object with the
given status code. -/
def errorResponse (msg : String) (code : Nat) : Response :=
  ⟨JVal.obj [("error", JVal.str msg)], code⟩

/-- Python truthiness of a JSON value, as tested by the handlers
(if not user_request / if not plan). -/
def jfalsy : JVal → Bool
  | JVal.null => true
  | JVal.bool b => !b
  | JVal.num n => n = 0
  | JVal.str s => s = ""
  | JVal.arr elems => elems.isEmpty
  | JVal.obj fields => fields.isEmpty

/-- app.py initialization: api_key = os.getenv("OPENAI_API_KEY",
config.agent.openai_api_key). The environment value, when the variable is
set, takes precedence (even when empty); otherwise the configuration
value, which may itself be absent. -/
def api_key (env cfgKey : Option String) : Option String :=
  match env with
  | some v => some v
  | none => cfgKey

/-- Python truthiness of the optional api_key string: None and the empty
string are falsy. -/
def truthyStr : Option String → Bool
  | none => false
  | some s => !(s = "")

/-- app.py initialization: openai_client is None when the api_key is falsy,
and a constructed client (modelled by the key itself) otherwise. -/
def openai_client (env cfgKey : Option String) : Option String :=
  if truthyStr (api_key env cfgKey) then api_key env cfgKey else none

/-- app.py, get_state handler: jsonify the loaded state. -/
def get_state (store : FileContent) : Response :=
  ⟨JVal.obj (StateManager.load_state store), 200⟩

/-- app.py, create_request handler. Returns the response together with the
snapshot actually passed to planner.create_plan (none when the planner was
never invoked). The client check comes first; then the prompt presence
check; then the state is loaded from the store and handed to the planner;
a planner exception is returned as a 500 error response. -/
def create_request (client : Option String) (prompt : Option JVal)
    (store : FileContent) (create_plan : JVal → Snapshot → Except String JVal) :
    Response × Option Snapshot :=
  match client with
  | none => (errorResponse "Planner is not configured; API key missing." 500, none)
  | some _ =>
    match prompt with
    | none => (errorResponse "Prompt is required" 400, none)
    | some p =>
      if jfalsy p then (errorResponse "Prompt is required" 400, none)
      else
        let current_state := StateManager.load_state store
        match create_plan p current_state with
        | Except.ok plan => (⟨plan, 200⟩, some current_state)
        | Except.error e => (errorResponse e 500, some current_state)

/-- app.py, execute_plan_endpoint handler. Returns the response together
with the snapshot actually passed to executor.execute_plan (none when the
executor was never invoked). The plan presence check comes first; then the
state is loaded from the store and handed to the executor; an executor
exception is returned as a 500 error response. -/
def execute_plan_endpoint (body : Option JVal) (store : FileContent)
    (execute_plan : JVal → Snapshot → Except String Snapshot) :
    Response × Option Snapshot :=
  match body with
  | none => (errorResponse "Plan is required" 400, none)
  | some plan =>
    if jfalsy plan then (errorResponse "Plan is required" 400, none)
    else
      let current_state := StateManager.load_state store
      match execute_plan plan current_state with
      | Except.ok new_state => (⟨JVal.obj new_state, 200⟩, some current_state)
      | Except.error e => (errorResponse e 500, some current_state)

/-- Modelled from the spec: a candidate ResourceSpec as consumed by the
PlanBuilder of core/agent.py (a module imported by app.py but absent from
the visible repository) — an identity assigned during planning and the list
of dependency references that must be placed earlier in the plan. -/
structure ResourceSpec where
  id : Nat
  deps : List Nat

namespace PlanBuilder

/-- Modelled from the spec: a step is ready once every declared dependency
has already been emitted (its id is among the done ids). -/
def depsSatisfied (done : List Nat) (n : ResourceSpec) : Bool :=
  n.deps.all (fun d => done.contains d)

/-- Modelled from the spec: pick the first ready spec, in original
extraction order (the stable tie-break), returning it and the remaining
pending specs in order. -/
def findReady : List ResourceSpec → List Nat → Option (ResourceSpec × List ResourceSpec)
  | [], _ => none
  | n :: rest, done =>
    if depsSatisfied done n then some (n, rest)
    else
      match findReady rest done with
      | some (m, rest2) => some (m, n :: rest2)
      | none => none

/-- Modelled from the spec: Kahn-style topological sorting with fuel. When
no pending spec is ready, the dependency graph has a cycle (or dangling
reference) and plan construction fails with a build-time error. -/
def topoSortAux : Nat → List ResourceSpec → List Nat → Except String (List ResourceSpec)
  | _, [], _ => Except.ok []
  | 0, _ :: _, _ => Except.error "cyclic dependencies detected"
  | fuel + 1, n0 :: pending, done =>
    match findReady (n0 :: pending) done with
    | none => Except.error "cyclic dependencies detected"
    | some (n, rest) =>
      match topoSortAux fuel rest (n.id :: done) with
      | Except.ok out => Except.ok (n :: out)
      | Except.error e => Except.error e

/-- Modelled from the spec: PlanBuilder orders the candidate specs into a
dependency-respecting Plan, or fails on cyclic dependencies. -/
def buildPlan (specs : List ResourceSpec) : Except String (List ResourceSpec) :=
  topoSortAux specs.length specs []

/-- A plan is topologically valid when every dependency of every step is
realized by a strictly earlier step. -/
def TopoValid (plan : List ResourceSpec) : Prop :=
  ∀ i (h : i < plan.length), ∀ d ∈ (plan.get ⟨i, h⟩).deps,
    ∃ j, ∃ hj : j < plan.length, j < i ∧ (plan.get ⟨j, hj⟩).id = d

/-- Auxiliary invariant: each step of the list has all dependencies among
the already-done ids or realized by an earlier step of the list. -/
def ValidFrom (done : List Nat) : List ResourceSpec → Prop
  | [] => True
  | n :: rest => (∀ d ∈ n.deps, d ∈ done) ∧ ValidFrom (n.id :: done) rest

/-- The declared dependency graph is cyclic exactly when some nonempty set
of ids is closed under taking one dependency step: every id in the set
belongs to a spec one of whose dependencies is again in the set. The vertex
set of any dependency cycle is such a set. -/
def CyclicDeps (specs : List ResourceSpec) : Prop :=
  ∃ S : List Nat, S ≠ [] ∧
    ∀ i ∈ S, ∃ n ∈ specs, n.id = i ∧ ∃ d ∈ n.deps, d ∈ S

end PlanBuilder

namespace PlanBuilder

theorem findReady_perm (done : List Nat) :
    ∀ (pending : List ResourceSpec) n rest,
      findReady pending done = some (n, rest) → List.Perm pending (n :: rest) := by
  intro pending
  induction pending with
  | nil => intro n rest h; exact absurd h (by simp [findReady])
  | cons n0 ps ih =>
    intro n rest h
    unfold findReady at h
    by_cases hd : depsSatisfied done n0
    · rw [if_pos hd] at h
      simp only [Option.some.injEq, Prod.mk.injEq] at h
      obtain ⟨rfl, rfl⟩ := h
      exact List.Perm.refl _
    · rw [if_neg hd] at h
      cases hfr : findReady ps done with
      | none => rw [hfr] at h; cases h
      | some pr =>
        obtain ⟨m, rest2⟩ := pr
        rw [hfr] at h
        simp only [Option.some.injEq, Prod.mk.injEq] at h
        obtain ⟨rfl, rfl⟩ := h
        exact List.Perm.trans (List.Perm.cons n0 (ih m rest2 hfr)) (List.Perm.swap m n0 rest2)

theorem findReady_ready (done : List Nat) :
    ∀ (pending : List ResourceSpec) n rest,
      findReady pending done = some (n, rest) → depsSatisfied done n = true := by
  intro pending
  induction pending with
  | nil => intro n rest h; exact absurd h (by simp [findReady])
  | cons n0 ps ih =>
    intro n rest h
    unfold findReady at h
    by_cases hd : depsSatisfied done n0
    · rw [if_pos hd] at h
      simp only [Option.some.injEq, Prod.mk.injEq] at h
      obtain ⟨rfl, rfl⟩ := h
      exact hd
    · rw [if_neg hd] at h
      cases hfr : findReady ps done with
      | none => rw [hfr] at h; cases h
      | some pr =>
        obtain ⟨m, rest2⟩ := pr
        rw [hfr] at h
        simp only [Option.some.injEq, Prod.mk.injEq] at h
        obtain ⟨rfl, rfl⟩ := h
        exact ih m rest2 hfr

theorem topoSortAux_perm (fuel : Nat) :
    ∀ pending done out, topoSortAux fuel pending done = Except.ok out →
      List.Perm out pending := by
  induction fuel with
  | zero =>
    intro pending done out h
    cases pending with
    | nil =>
      unfold topoSortAux at h
      injection h with h
      subst h
      exact List.Perm.refl _
    | cons n0 ps => exact absurd h (by simp [topoSortAux])
  | succ fuel ih =>
    intro pending done out h
    cases pending with
    | nil =>
      unfold topoSortAux at h
      injection h with h
      subst h
      exact List.Perm.refl _
    | cons n0 ps =>
      unfold topoSortAux at h
      cases hfr : findReady (n0 :: ps) done with
      | none => rw [hfr] at h; simp at h
      | some pr =>
        obtain ⟨n, rest⟩ := pr
        rw [hfr] at h
        simp only [] at h
        cases hrec : topoSortAux fuel rest (n.id :: done) with
        | error e => rw [hrec] at h; simp at h
        | ok out2 =>
          rw [hrec] at h
          simp only [] at h
          injection h with h
          subst h
          exact List.Perm.trans (List.Perm.cons n (ih rest (n.id :: done) out2 hrec))
            (List.Perm.symm (findReady_perm done (n0 :: ps) n rest hfr))

theorem topoSortAux_validFrom (fuel : Nat) :
    ∀ pending done out, topoSortAux fuel pending done = Except.ok out →
      ValidFrom done out := by
  induction fuel with
  | zero =>
    intro pending done out h
    cases pending with
    | nil =>
      unfold topoSortAux at h
      injection h with h
      subst h
      trivial
    | cons n0 ps => exact absurd h (by simp [topoSortAux])
  | succ fuel ih =>
    intro pending done out h
    cases pending with
    | nil =>
      unfold topoSortAux at h
      injection h with h
      subst h
      trivial
    | cons n0 ps =>
      unfold topoSortAux at h
      cases hfr : findReady (n0 :: ps) done with
      | none => rw [hfr] at h; simp at h
      | some pr =>
        obtain ⟨n, rest⟩ := pr
        rw [hfr] at h
        simp only [] at h
        cases hrec : topoSortAux fuel rest (n.id :: done) with
        | error e => rw [hrec] at h; simp at h
        | ok out2 =>
          rw [hrec] at h
          simp only [] at h
          injection h with h
          subst h
          refine ⟨?_, ih rest (n.id :: done) out2 hrec⟩
          intro d hd
          have hds := findReady_ready done (n0 :: ps) n rest hfr
          unfold depsSatisfied at hds
          rw [List.all_eq_true] at hds
          simpa [List.contains] using hds d hd

theorem validFrom_realized (out : List ResourceSpec) :
    ∀ done, ValidFrom done out →
      ∀ i (h : i < out.length), ∀ d ∈ (out.get ⟨i, h⟩).deps,
        d ∈ done ∨ ∃ j, ∃ hj : j < out.length, j < i ∧ (out.get ⟨j, hj⟩).id = d := by
  induction out with
  | nil => intro done _ i h; exact absurd h (Nat.not_lt_zero i)
  | cons n rest ih =>
    intro done hv i h d hd
    obtain ⟨h1, h2⟩ := hv
    cases i with
    | zero => exact Or.inl (h1 d hd)
    | succ i =>
      have h' : i < rest.length := Nat.lt_of_succ_lt_succ h
      rcases ih (n.id :: done) h2 i h' d hd with hmem | ⟨j, hj, hji, hid⟩
      · rcases List.mem_cons.mp hmem with heq | hmem2
        · exact Or.inr ⟨0, Nat.succ_pos _, Nat.succ_pos i, heq.symm⟩
        · exact Or.inl hmem2
      · exact Or.inr ⟨j + 1, Nat.succ_lt_succ hj, Nat.succ_lt_succ hji, hid⟩

theorem buildPlan_ok_topoValid (specs plan : List ResourceSpec)
    (h : buildPlan specs = Except.ok plan) : TopoValid plan := by
  have hv := topoSortAux_validFrom specs.length specs [] plan h
  intro i hi d hd
  rcases validFrom_realized plan [] hv i hi d hd with hmem | hex
  · exact absurd hmem (List.not_mem_nil d)
  · exact hex

theorem no_descending_position {P : Nat → Prop}
    (hstep : ∀ p, P p → ∃ q, q < p ∧ P q) : ∀ p, ¬ P p := by
  intro p
  induction p using Nat.strong_induction_on with
  | _ p ih =>
    intro hp
    obtain ⟨q, hq, hPq⟩ := hstep p hp
    exact ih q hq hPq

theorem buildPlan_cyclic_error (specs : List ResourceSpec)
    (hnodup : (specs.map ResourceSpec.id).Nodup) (hcyc : CyclicDeps specs) :
    ∃ e, buildPlan specs = Except.error e := by
  cases hbp : buildPlan specs with
  | error e => exact ⟨e, rfl⟩
  | ok plan =>
    exfalso
    have hperm := topoSortAux_perm specs.length specs [] plan hbp
    have htv := buildPlan_ok_topoValid specs plan hbp
    obtain ⟨S, hSne, hSstep⟩ := hcyc
    have hnodup_plan : (plan.map ResourceSpec.id).Nodup :=
      ((hperm.map ResourceSpec.id).nodup_iff).mpr hnodup
    have hstep : ∀ p, (∃ hp : p < plan.length, (plan.get ⟨p, hp⟩).id ∈ S) →
        ∃ q, q < p ∧ ∃ hq : q < plan.length, (plan.get ⟨q, hq⟩).id ∈ S := by
      rintro p ⟨hp, hpS⟩
      obtain ⟨n, hn_specs, hn_id, d, hd_deps, hdS⟩ := hSstep _ hpS
      have hn_plan : n ∈ plan := hperm.mem_iff.mpr hn_specs
      obtain ⟨p1, hp1, hget⟩ := List.mem_iff_getElem.mp hn_plan
      have hp1m : p1 < (plan.map ResourceSpec.id).length := by simpa using hp1
      have hpm : p < (plan.map ResourceSpec.id).length := by simpa using hp
      have hid_eq : (plan.map ResourceSpec.id)[p1] = (plan.map ResourceSpec.id)[p] := by
        simp only [List.getElem_map]
        rw [show plan[p1] = n from hget, hn_id]
        rfl
      have hp1p : p1 = p := (hnodup_plan.getElem_inj_iff).mp hid_eq
      subst hp1p
      have hd_deps2 : d ∈ (plan.get ⟨p1, hp⟩).deps := by
        rw [show plan.get ⟨p1, hp⟩ = n from hget]
        exact hd_deps
      obtain ⟨q, hq, hqlt, hqid⟩ := htv p1 hp d hd_deps2
      exact ⟨q, hqlt, hq, hqid ▸ hdS⟩
    obtain ⟨i0, hi0S⟩ := List.exists_mem_of_ne_nil S hSne
    obtain ⟨n, hn_specs, hn_id, _⟩ := hSstep i0 hi0S
    have hn_plan : n ∈ plan := hperm.mem_iff.mpr hn_specs
    obtain ⟨p, hp, hget⟩ := List.mem_iff_getElem.mp hn_plan
    exact no_descending_position hstep p ⟨hp, by rw [show plan.get ⟨p, hp⟩ = n from hget, hn_id]; exact hi0S⟩

end PlanBuilder

/-- C1: every Plan produced by the PlanBuilder is a valid topological order of
the declared dependency graph — every dependency of a step is realized by a
strictly earlier step, and no candidate spec is silently dropped (the plan is
a permutation of the input) — and any cyclic dependency graph over distinct
spec identities makes plan construction fail with a build-time error. -/
theorem planBuilder_topological_order_and_cycle_error :
    (∀ specs plan, PlanBuilder.buildPlan specs = Except.ok plan →
      PlanBuilder.TopoValid plan ∧ List.Perm plan specs) ∧
    (∀ specs, (specs.map ResourceSpec.id).Nodup → PlanBuilder.CyclicDeps specs →
      ∃ e, PlanBuilder.buildPlan specs = Except.error e) := by
  constructor
  · intro specs plan h
    exact ⟨PlanBuilder.buildPlan_ok_topoValid specs plan h,
      PlanBuilder.topoSortAux_perm specs.length specs [] plan h⟩
  · exact PlanBuilder.buildPlan_cyclic_error

/-- Witness for C1: a two-spec input where the first spec depends on the
second yields the reordered valid plan, and a two-spec mutual dependency is
rejected with an error. -/
theorem planBuilder_topological_order_and_cycle_error_witness :
    (PlanBuilder.TopoValid ([⟨1, []⟩, ⟨0, [1]⟩] : List ResourceSpec) ∧
      List.Perm ([⟨1, []⟩, ⟨0, [1]⟩] : List ResourceSpec) [⟨0, [1]⟩, ⟨1, []⟩]) ∧
    (∃ e, PlanBuilder.buildPlan [⟨0, [1]⟩, ⟨1, [0]⟩] = Except.error e) := by
  constructor
  · exact planBuilder_topological_order_and_cycle_error.1
      ([⟨0, [1]⟩, ⟨1, []⟩] : List ResourceSpec) [⟨1, []⟩, ⟨0, [1]⟩] rfl
  · exact planBuilder_topological_order_and_cycle_error.2
      ([⟨0, [1]⟩, ⟨1, [0]⟩] : List ResourceSpec)
      (by decide) ⟨[0, 1], by decide, by decide⟩

/-- C2 counterexample: during a save of the new snapshot (or after a save
that failed once the file was opened for writing), the backing file is
truncated, and a reader observes the empty snapshot — neither the previously
persisted snapshot nor the new one. -/
theorem save_state_not_atomic :
    ¬ (∀ fc ∈ StateManager.save_state_trace [("b", JVal.num 2)],
        StateManager.load_state fc =
          StateManager.load_state (FileContent.stored [("a", JVal.num 1)]) ∨
        StateManager.load_state fc = [("b", JVal.num 2)]) := by
  intro h
  have hc := h FileContent.corrupt (by simp [StateManager.save_state_trace])
  rcases hc with h1 | h1 <;> simp [StateManager.load_state] at h1

/-- C2 (amended): save_state replaces the persisted snapshot wholesale
through a single truncating write, but not atomically: any file content
observable during or after a possibly failed save loads as either the empty
snapshot (truncated or partially written file) or the complete new snapshot,
never a mixture of old and new, and a completed save stores exactly the new
snapshot. -/
theorem save_state_wholesale_replacement :
    ∀ s : Snapshot,
      (∀ fc ∈ StateManager.save_state_trace s,
        StateManager.load_state fc = [] ∨ StateManager.load_state fc = s) ∧
      StateManager.save_state s = FileContent.stored s := by
  intro s
  refine ⟨?_, rfl⟩
  intro fc hfc
  have h2 : fc = FileContent.corrupt ∨ fc = FileContent.stored s := by
    simpa [StateManager.save_state_trace] using hfc
  rcases h2 with rfl | rfl
  · exact Or.inl rfl
  · exact Or.inr rfl

/-- Witness for C2 (amended) at a concrete snapshot and the truncated file
content reached during the save. -/
theorem save_state_wholesale_replacement_witness :
    StateManager.load_state FileContent.corrupt = [] ∨
      StateManager.load_state FileContent.corrupt = [("x", JVal.null)] :=
  (save_state_wholesale_replacement [("x", JVal.null)]).1 FileContent.corrupt
    (by simp [StateManager.save_state_trace])

/-- C3: load_state on an absent backing file and on a corrupt (unparseable)
backing file returns the empty snapshot; being a total function of the file
content, it raises nothing to the caller in either case. -/
theorem load_state_absent_or_corrupt_empty :
    StateManager.load_state FileContent.absent = [] ∧
      StateManager.load_state FileContent.corrupt = [] :=
  ⟨rfl, rfl⟩

/-- C4: SettingsLoader construction is fatal when any of the three settings
documents is missing or malformed — the constructor returns an error and no
loader instance is produced. -/
theorem settings_load_failure_fatal :
    ∀ (sp : String) (dir : SettingsDir),
      (dir.field_mappings_file.loadable = false ∨
        dir.resource_extraction_file.loadable = false ∨
        dir.resource_patterns_file.loadable = false) →
      ∃ e, SettingsLoader.init sp dir = Except.error e := by
  intro sp dir h
  obtain ⟨f1, f2, f3, tpl⟩ := dir
  cases f1 with
  | missing => exact ⟨_, rfl⟩
  | malformed => exact ⟨_, rfl⟩
  | parsed v1 =>
    cases f2 with
    | missing => exact ⟨_, rfl⟩
    | malformed => exact ⟨_, rfl⟩
    | parsed v2 =>
      cases f3 with
      | missing => exact ⟨_, rfl⟩
      | malformed => exact ⟨_, rfl⟩
      | parsed v3 => simp [YamlFile.loadable] at h

/-- Witness for C4: a missing field-mappings file makes construction fail. -/
theorem settings_load_failure_fatal_witness :
    ∃ e, SettingsLoader.init "settings"
      ⟨YamlFile.missing, YamlFile.parsed JVal.null, YamlFile.parsed JVal.null, none⟩ =
      Except.error e :=
  settings_load_failure_fatal "settings"
    ⟨YamlFile.missing, YamlFile.parsed JVal.null, YamlFile.parsed JVal.null, none⟩
    (Or.inl rfl)

/-- C5: with the OpenAI API key absent from both the environment and the
configuration, the constructed client is None and every planning request
returns the planner-unavailable error response (status 500, key-missing
message) without ever invoking the planner — no plan is produced. -/
theorem absent_api_key_planner_unavailable :
    ∀ (prompt : Option JVal) (store : FileContent)
      (create_plan : JVal → Snapshot → Except String JVal),
      create_request (openai_client none none) prompt store create_plan =
        (errorResponse "Planner is not configured; API key missing." 500, none) := by
  intro prompt store cp
  rfl

/-- C6: each AWSClient operation returns exactly the result of its provider
call — the authoritative response on success, and on failure the same typed
provider error, re-raised rather than swallowed. -/
theorem aws_operations_return_provider_result :
    ∀ (p : AWSProvider) (image_id instance_type key_name : String)
      (security_group_ids : List String) (instance_id bucket_name region : String),
      AWSClient.create_ec2_instance p image_id instance_type key_name security_group_ids =
        p.run_instances
          (AWSClient.ec2RunParams image_id instance_type key_name security_group_ids) ∧
      AWSClient.terminate_ec2_instance p instance_id = p.terminate_instances [instance_id] ∧
      AWSClient.create_s3_bucket p bucket_name region =
        p.create_bucket bucket_name [("LocationConstraint", region)] ∧
      AWSClient.list_vpcs p = p.describe_vpcs () := by
  intro p iid it kn sg tid bn rg
  refine ⟨?_, ?_, ?_, ?_⟩
  · unfold AWSClient.create_ec2_instance
    cases p.run_instances (AWSClient.ec2RunParams iid it kn sg) with
    | ok r => rfl
    | error e => rfl
  · unfold AWSClient.terminate_ec2_instance
    cases p.terminate_instances [tid] with
    | ok r => rfl
    | error e => rfl
  · unfold AWSClient.create_s3_bucket
    cases p.create_bucket bn [("LocationConstraint", rg)] with
    | ok r => rfl
    | error e => rfl
  · unfold AWSClient.list_vpcs
    cases p.describe_vpcs () with
    | ok r => rfl
    | error e => rfl

/-- C7: when a handler invokes the planner or the executor, the snapshot it
passes is exactly the one loaded from the backing store at the start of that
request, never a snapshot retained from a previous cycle. -/
theorem handlers_plan_and_execute_on_fresh_state :
    (∀ client prompt store cp snap,
      (create_request client prompt store cp).2 = some snap →
      snap = StateManager.load_state store) ∧
    (∀ body store ex snap,
      (execute_plan_endpoint body store ex).2 = some snap →
      snap = StateManager.load_state store) := by
  constructor
  · intro client prompt store cp snap h
    cases client with
    | none => exact absurd h (by simp [create_request])
    | some c =>
      cases prompt with
      | none => exact absurd h (by simp [create_request])
      | some p =>
        by_cases hp : jfalsy p
        · exact absurd h (by simp [create_request, hp])
        · cases hcp : cp p (StateManager.load_state store) with
          | ok plan =>
            simp [create_request, hp, hcp] at h
            exact h.symm
          | error e =>
            simp [create_request, hp, hcp] at h
            exact h.symm
  · intro body store ex snap h
    cases body with
    | none => exact absurd h (by simp [execute_plan_endpoint])
    | some plan =>
      by_cases hp : jfalsy plan
      · exact absurd h (by simp [execute_plan_endpoint, hp])
      · cases hex : ex plan (StateManager.load_state store) with
        | ok ns =>
          simp [execute_plan_endpoint, hp, hex] at h
          exact h.symm
        | error e =>
          simp [execute_plan_endpoint, hp, hex] at h
          exact h.symm

/-- Witness for C7: concrete requests in which the planner and the executor
are invoked, each receiving the snapshot loaded from the given store. -/
theorem handlers_plan_and_execute_on_fresh_state_witness :
    (([("r", JVal.null)] : Snapshot) =
      StateManager.load_state (FileContent.stored [("r", JVal.null)])) ∧
    (([("q", JVal.null)] : Snapshot) =
      StateManager.load_state (FileContent.stored [("q", JVal.null)])) :=
  ⟨handlers_plan_and_execute_on_fresh_state.1 (some "key") (some (JVal.str "req"))
      (FileContent.stored [("r", JVal.null)]) (fun _ _ => Except.ok JVal.null)
      [("r", JVal.null)] rfl,
    handlers_plan_and_execute_on_fresh_state.2 (some (JVal.str "plan"))
      (FileContent.stored [("q", JVal.null)]) (fun _ s => Except.ok s)
      [("q", JVal.null)] rfl⟩

/-- C8: saving a snapshot and then loading on the same StateManager returns
the same snapshot. -/
theorem save_then_load_roundtrip :
    ∀ s : Snapshot, StateManager.load_state (StateManager.save_state s) = s :=
  fun _ => rfl

/-- C9: create_ec2_instance always requests exactly one instance — the
provider call is issued with the parameters built by ec2RunParams, whose
MinCount and MaxCount are fixed at 1 for all argument values. -/
theorem create_ec2_instance_requests_exactly_one :
    ∀ (p : AWSProvider) (image_id instance_type key_name : String)
      (security_group_ids : List String),
      AWSClient.create_ec2_instance p image_id instance_type key_name security_group_ids =
        p.run_instances
          (AWSClient.ec2RunParams image_id instance_type key_name security_group_ids) ∧
      (AWSClient.ec2RunParams image_id instance_type key_name security_group_ids).MinCount = 1 ∧
      (AWSClient.ec2RunParams image_id instance_type key_name security_group_ids).MaxCount = 1 := by
  intro p iid it kn sg
  refine ⟨?_, rfl, rfl⟩
  unfold AWSClient.create_ec2_instance
  cases p.run_instances (AWSClient.ec2RunParams iid it kn sg) with
  | ok r => rfl
  | error e => rfl

/-- C10: with the three YAML settings documents present and parseable, a
missing templates directory is not fatal — construction succeeds and the
prompt-template table is empty. -/
theorem missing_templates_dir_not_fatal :
    ∀ (sp : String) (v1 v2 v3 : JVal),
      SettingsLoader.init sp
        ⟨YamlFile.parsed v1, YamlFile.parsed v2, YamlFile.parsed v3, none⟩ =
        Except.ok ⟨sp, v1, v2, v3, []⟩ := by
  intro sp v1 v2 v3
  rfl
